import Mathlib

set_option autoImplicit false

/-!
Verification of the tiered media backup pipeline of `nixOS-immich-webui`.

The Go sources are shallowly embedded: machine integers become `Int`,
timestamps become `Int` (days or seconds as noted per component), Go maps
become association lists, the filesystem and clock become explicit
parameters, and fallible operations return `Except`.  Calls into the Go
standard library (`filepath.Match`, `filepath.Base`) and into the external
media tools are modelled as function parameters, so every theorem holds for
all of their behaviours.
-/

namespace BackupPipeline

/-! ### Quality tier catalog and tiering engine
Embedded from `internal/backup/config/tiering.go`. -/

/-- A quality tier record, from the `QualityTier` struct (yaml config).
Derived/display-only fields (`PhotoMaxResolutionMP`) are omitted. -/
structure QualityTier where
  name : String
  ageThresholdDays : Int
  photoMaxResolution : Int
  photoQuality : Int
  videoMaxHeight : Int
  videoMaxFPS : Int
  videoCRF : Int
  metadataLevel : String
  deriving Repr, DecidableEq

/-- A date-range exception from `UserPreferences.DateRangeExceptions`.
Timestamps are modelled as integers (days). -/
structure DateRange where
  startDate : Int
  endDate : Int
  forceTier : String
  deriving Repr, DecidableEq

/-- The slice of `BackupConfig` that the tiering engine reads.  The Go
`map[string]string` of folder overrides is modelled as an association list
(one fixed iteration order of the Go map). -/
structure BackupConfigModel where
  qualityTiers : List QualityTier
  qualityAdjustmentStep : Int
  folderOverrides : List (String × String)
  dateRangeExceptions : List DateRange
  deriving Repr, DecidableEq

/-- The `for _, tier := range c.QualityTiers` loop body of
`BackupConfig.GetTierByAge`: return the first tier with `ageDays <= tier.AgeThresholdDays`. -/
def getTierByAgeLoop : List QualityTier → Int → Option QualityTier
  | [], _ => none
  | t :: rest, ageDays =>
    if ageDays ≤ t.ageThresholdDays then some t else getTierByAgeLoop rest ageDays

/-- `BackupConfig.GetTierByAge` (tiering.go): first tier whose threshold is
at least the age in days, else the last tier.  On an empty catalog the Go
code would panic indexing `QualityTiers[len-1]`; this is modelled by `none`. -/
def GetTierByAge (tiers : List QualityTier) (ageDays : Int) : Option QualityTier :=
  match getTierByAgeLoop tiers ageDays with
  | some t => some t
  | none => tiers.getLast?

/-- The inner `for _, tier := range te.config.QualityTiers` name lookup used
by both override checks. -/
def findTierByName (tiers : List QualityTier) (tierName : String) : Option QualityTier :=
  tiers.find? (fun t => t.name == tierName)

/-- `strings.HasPrefix(s, pre)` (what the deprecated `filepath.HasPrefix`
calls), on the character lists of the two strings. -/
def strHasPrefix (s pre : String) : Bool :=
  decide (pre.toList <+: s.toList)

/-- `TieringEngine.checkFolderOverrides`: first override whose folder is a
literal prefix of the file path (`filepath.HasPrefix` is a plain string
prefix test) and whose named tier exists in the catalog.  An override whose
tier name resolves to nothing is skipped and the scan continues, exactly as
the Go double loop does. -/
def checkFolderOverrides (cfg : BackupConfigModel) (filePath : String) : Option QualityTier :=
  go cfg.folderOverrides
where
  go : List (String × String) → Option QualityTier
    | [] => none
    | (folder, tierName) :: rest =>
      if strHasPrefix filePath folder then
        match findTierByName cfg.qualityTiers tierName with
        | some t => some t
        | none => go rest
      else go rest

/-- `TieringEngine.checkDateRangeExceptions`: first exception with
`fileDate.After(start) && fileDate.Before(end)` (strict on both sides)
whose forced tier exists in the catalog. -/
def checkDateRangeExceptions (cfg : BackupConfigModel) (fileDate : Int) : Option QualityTier :=
  go cfg.dateRangeExceptions
where
  go : List DateRange → Option QualityTier
    | [] => none
    | ex :: rest =>
      if ex.startDate < fileDate ∧ fileDate < ex.endDate then
        match findTierByName cfg.qualityTiers ex.forceTier with
        | some t => some t
        | none => go rest
      else go rest

/-- `TieringEngine.applySpacePressureAdjustment`: raise the video CRF by the
configured step when the result stays within 51, lower the photo quality by
the step when the result stays at least 50.  The input tier is a value copy
(`adjustedTier := tier` in Go), so the catalog entry is never touched. -/
def applySpacePressureAdjustment (step : Int) (tier : QualityTier) : QualityTier :=
  let t1 := if tier.videoCRF + step ≤ 51 then { tier with videoCRF := tier.videoCRF + step } else tier
  if 50 ≤ t1.photoQuality - step then { t1 with photoQuality := t1.photoQuality - step } else t1

/-- `TieringEngine.DetermineTier`: folder override, then date-range
exception, then age-based tier with the space-pressure adjustment applied
exactly when `adjustmentActive` is set.  The file age is
`now - fileDate` in days (`time.Since(fileDate)` converted by `GetTierByAge`). -/
def DetermineTier (cfg : BackupConfigModel) (adjustmentActive : Bool)
    (now fileDate : Int) (filePath : String) : Option QualityTier :=
  match checkFolderOverrides cfg filePath with
  | some t => some t
  | none =>
    match checkDateRangeExceptions cfg fileDate with
    | some t => some t
    | none =>
      match GetTierByAge cfg.qualityTiers (now - fileDate) with
      | none => none
      | some baseTier =>
        if adjustmentActive then
          some (applySpacePressureAdjustment cfg.qualityAdjustmentStep baseTier)
        else
          some baseTier

/-- First default tier of `GetDefaultConfig` (config.go). -/
def defaultTierHigh : QualityTier :=
  { name := "High Quality (0-12 months)", ageThresholdDays := 365,
    photoMaxResolution := 12000000, photoQuality := 92, videoMaxHeight := 1080,
    videoMaxFPS := 60, videoCRF := 20, metadataLevel := "full" }

/-- Second default tier of `GetDefaultConfig` (config.go). -/
def defaultTierMedium : QualityTier :=
  { name := "Medium Quality (1-3 years)", ageThresholdDays := 1095,
    photoMaxResolution := 8000000, photoQuality := 88, videoMaxHeight := 1080,
    videoMaxFPS := 30, videoCRF := 23, metadataLevel := "essential" }

/-- Third default tier of `GetDefaultConfig` (config.go). -/
def defaultTierLow : QualityTier :=
  { name := "Space Optimized (3+ years)", ageThresholdDays := 999999,
    photoMaxResolution := 8000000, photoQuality := 80, videoMaxHeight := 720,
    videoMaxFPS := 30, videoCRF := 26, metadataLevel := "minimal" }

/-- The default tier catalog of `GetDefaultConfig` (config.go): thresholds
365 / 1095 / 999999 days, CRF 20 / 23 / 26, photo quality 92 / 88 / 80. -/
def defaultQualityTiers : List QualityTier :=
  [defaultTierHigh, defaultTierMedium, defaultTierLow]

/-! ### Space monitor
Embedded from `SpaceMonitor` in `internal/backup/config/tiering.go`.
Times are seconds; the cache interval of 5 minutes is 300 seconds. -/

/-- One entry seen by `filepath.Walk` over the data directory. -/
structure FsEntry where
  isDir : Bool
  size : Int
  deriving Repr, DecidableEq

/-- The walk in `SpaceMonitor.GetCurrentUsage`: sum the sizes of all
non-directory entries. -/
def walkTotalSize (entries : List FsEntry) : Int :=
  entries.foldl (fun acc e => if e.isDir then acc else acc + e.size) 0

/-- `SpaceMonitor` state: last check time and cached usage. -/
structure SpaceMonitor where
  lastCheck : Int
  usedSpace : Int
  deriving Repr, DecidableEq

/-- `NewSpaceMonitor`: `lastCheck` starts at the construction time and the
cached usage starts at zero; no scan is performed. -/
def NewSpaceMonitor (now : Int) : SpaceMonitor :=
  { lastCheck := now, usedSpace := 0 }

/-- Result of one `GetCurrentUsage` call: the returned byte count, the
monitor state afterwards, and whether a filesystem scan was performed. -/
structure UsageResult where
  value : Int
  monitor : SpaceMonitor
  scanned : Bool
  deriving Repr, DecidableEq

/-- `SpaceMonitor.GetCurrentUsage`: return the cached value when the last
check is less than 300 seconds old, otherwise walk the data directory,
cache the total and return it. -/
def GetCurrentUsage (sm : SpaceMonitor) (now : Int) (fs : List FsEntry) : UsageResult :=
  if now - sm.lastCheck < 300 then
    { value := sm.usedSpace, monitor := sm, scanned := false }
  else
    let total := walkTotalSize fs
    { value := total, monitor := { lastCheck := now, usedSpace := total }, scanned := true }

/-! ### File registry
Embedded from `internal/backup/storage/file_tracker.go`.  The registry map
`map[string]ProcessedFile` is an association list keyed by hash strings;
file contents are abstract strings and SHA-256 is a function parameter
(its one property used by the code is that hex digests are non-empty). -/

/-- The persisted `ProcessedFile` record (fields the pipeline populates). -/
structure ProcessedFile where
  originalPath : String
  processedPath : String
  originalHash : String
  qualityTier : String
  status : String
  deriving Repr, DecidableEq

/-- Go map read `m[k]`. -/
def mapGet {α : Type} : List (String × α) → String → Option α
  | [], _ => none
  | (k, v) :: rest, key => if k = key then some v else mapGet rest key

/-- Go map write `m[k] = v`: replace the binding when present, else add it. -/
def mapSet {α : Type} : List (String × α) → String → α → List (String × α)
  | [], key, v => [(key, v)]
  | (k, w) :: rest, key, v =>
    if k = key then (key, v) :: rest else (k, w) :: mapSet rest key v

/-- The registry: content of `processed_files.json`. -/
abbrev Registry : Type := List (String × ProcessedFile)

/-- `FileTracker.AddProcessedFile`: store the record under its
`OriginalHash` field. -/
def AddProcessedFile (reg : Registry) (file : ProcessedFile) : Registry :=
  mapSet reg file.originalHash file

/-- `FileTracker.IsFileProcessed`: hash the file content and look the digest
up; `sha256Hex` stands for the SHA-256 hex digest of the content. -/
def IsFileProcessed (sha256Hex : String → String) (reg : Registry)
    (content : String) : Bool :=
  (mapGet reg (sha256Hex content)).isSome

/-- The `storage.ProcessedFile{...}` literal built in `Pipeline.processFiles`
after a successful transform.  The literal sets path, size, tier, timing and
status fields but never `OriginalHash`, which therefore keeps the Go zero
value `""` (the photo/video `ProcessingResult` carries no hash either). -/
def makeTrackedFile (srcPath destPath tierName : String) : ProcessedFile :=
  { originalPath := srcPath, processedPath := destPath,
    originalHash := "", qualityTier := tierName, status := "completed" }

/-- The registry interaction of one worker iteration in
`Pipeline.processFiles` for a file that the transformer handles
successfully: skip when `IsFileProcessed` answers true, otherwise add the
tracked record.  Returns the new registry and whether the file was skipped. -/
def processFileRegistryStep (sha256Hex : String → String) (reg : Registry)
    (content srcPath destPath tierName : String) : Registry × Bool :=
  if IsFileProcessed sha256Hex reg content then
    (reg, true)
  else
    (AddProcessedFile reg (makeTrackedFile srcPath destPath tierName), false)

/-! ### Discovery and run-status aggregation
Embedded from `Pipeline.discoverFiles`, `Pipeline.shouldIncludeFile` and
the result aggregation of `Pipeline.ProcessDirectory` in
`internal/backup/processor/pipeline.go`.  `filepath.Match` and
`filepath.Base` are stdlib collaborators and appear as function
parameters `globMatch` and `base`; `strings.Contains` is modelled
concretely. -/

/-- `strings.Contains(s, pat)`. -/
def strContains (s pat : String) : Bool :=
  decide (pat.toList <:+: s.toList)

/-- One pattern test of `shouldIncludeFile`: glob match against the base
name, or literal substring of the full path. -/
def patternMatches (globMatch : String → String → Bool) (base : String → String)
    (filePath pattern : String) : Bool :=
  globMatch pattern (base filePath) || strContains filePath pattern

/-- `Pipeline.shouldIncludeFile`: any exclude-pattern match wins and
excludes; with no include patterns everything else is included; otherwise
some include pattern must match. -/
def shouldIncludeFile (globMatch : String → String → Bool) (base : String → String)
    (filePath : String) (includePatterns excludePatterns : List String) : Bool :=
  if excludePatterns.any (patternMatches globMatch base filePath) then
    false
  else if includePatterns.isEmpty then
    true
  else
    includePatterns.any (patternMatches globMatch base filePath)

/-- One callback invocation of the `filepath.Walk` in
`Pipeline.discoverFiles`: either an access error (`err != nil`, including
the single call made for an unreadable root), a directory, or a file entry. -/
inductive WalkEvent where
  | errorEntry (path : String)
  | dirEntry (path : String)
  | fileEntry (path : String) (size : Int) (modTime : Int)
  deriving Repr, DecidableEq

/-- A discovered media file (`FileInfo` in pipeline.go). -/
structure DiscoveredFile where
  path : String
  fileType : String
  size : Int
  modTime : Int
  deriving Repr, DecidableEq

/-- The walk callback of `Pipeline.discoverFiles`.  On an access error it
logs and returns nil so the walk continues — including when the event is
the root itself.  `classify` stands for the
`IsPhotoFile` / `IsVideoFile` extension tests of the media processors. -/
def discoverStep (globMatch : String → String → Bool) (base : String → String)
    (classify : String → Option String)
    (includePatterns excludePatterns : List String)
    (acc : List DiscoveredFile) : WalkEvent → List DiscoveredFile
  | .errorEntry _ => acc
  | .dirEntry _ => acc
  | .fileEntry path size modTime =>
    if shouldIncludeFile globMatch base path includePatterns excludePatterns then
      match classify path with
      | some ty => acc ++ [{ path := path, fileType := ty, size := size, modTime := modTime }]
      | none => acc
    else acc

/-- `Pipeline.discoverFiles`: fold the callback over the walk events.  The
callback returns nil on every path, so `filepath.Walk` never aborts and
never reports an error; the function can only return `Except.ok`. -/
def discoverFiles (globMatch : String → String → Bool) (base : String → String)
    (classify : String → Option String)
    (includePatterns excludePatterns : List String)
    (events : List WalkEvent) : Except String (List DiscoveredFile) :=
  Except.ok (events.foldl (discoverStep globMatch base classify includePatterns excludePatterns) [])

/-- Outcome of one worker iteration for a dequeued file: registry skip,
successful transform, or a transform failure carrying the per-file error. -/
inductive FileOutcome where
  | skippedAlready
  | transformed
  | failed (msg : String)
  deriving Repr, DecidableEq

/-- The error entry a file outcome contributes to `result.Errors`. -/
def outcomeError : FileOutcome → Option String
  | .failed msg => some msg
  | _ => none

/-- The fields of `ProcessingResult` that determine the final job status. -/
structure RunResult where
  status : String
  processedFiles : Nat
  failedFiles : Nat
  errors : List String
  deriving Repr, DecidableEq

/-- The aggregation performed by `Pipeline.ProcessDirectory` over
`processFiles`: `processedCount` is incremented for every file taken from
the work channel — before the skip check and regardless of success — so it
equals the number of dequeued files; the error list collects the per-file
errors; the status is `completed` with no errors, else
`completed_with_errors` when the count is positive, else `failed`. -/
def processFilesResult (outcomes : List FileOutcome) : RunResult :=
  let processedCount := outcomes.length
  let errs := outcomes.filterMap outcomeError
  { status :=
      if errs.isEmpty then "completed"
      else if 0 < processedCount then "completed_with_errors"
      else "failed",
    processedFiles := processedCount,
    failedFiles := errs.length,
    errors := errs }

/-- `Pipeline.ProcessDirectory` end to end on the status level: a discovery
error is fatal (status `failed`), otherwise each discovered file is
processed (`outcome` stands for tiering plus the external transformer) and
the results are aggregated. -/
def pipelineRunStatus (discovery : Except String (List DiscoveredFile))
    (outcome : DiscoveredFile → FileOutcome) : RunResult :=
  match discovery with
  | .error e =>
    { status := "failed", processedFiles := 0, failedFiles := 0,
      errors := ["File discovery failed: " ++ e] }
  | .ok files => processFilesResult (files.map outcome)

/-! ### Job store lifecycle
Embedded from `JobManager` in `internal/backup/storage` (job manager part of
the pipeline sources).  The on-disk job files become an association list,
the `active/<id>.lock` files become a list of job ids, and timestamps are
integers. -/

inductive JobStatus where
  | pending
  | running
  | completed
  | failed
  | canceled
  deriving Repr, DecidableEq

/-- The `%s` rendering of a `JobStatus` in the Go error messages. -/
def statusText : JobStatus → String
  | .pending => "pending"
  | .running => "running"
  | .completed => "completed"
  | .failed => "failed"
  | .canceled => "canceled"

/-- The lifecycle-relevant fields of `BackupJob`. -/
structure BackupJob where
  id : String
  status : JobStatus
  startedAt : Option Int
  lastRunAt : Option Int
  completedAt : Option Int
  errorMessage : String
  deriving Repr, DecidableEq

/-- The durable state the job manager owns: job records keyed by id, and
the set of run-exclusion lock files under `jobs/active/`. -/
structure JobStore where
  jobs : List (String × BackupJob)
  locks : List String
  deriving Repr, DecidableEq

/-- `JobManager.StartJob`: reject unless the job is pending; otherwise
write the lock file, set status running and record the start timestamps.
The rejection happens before any write, so an error leaves the store
untouched. -/
def StartJob (s : JobStore) (jobID : String) (now : Int) : Except String JobStore :=
  match mapGet s.jobs jobID with
  | none => Except.error "getting job"
  | some job =>
    if job.status = .pending then
      Except.ok
        { jobs := mapSet s.jobs jobID
            { job with status := .running, startedAt := some now, lastRunAt := some now },
          locks := if s.locks.contains jobID then s.locks else jobID :: s.locks }
    else
      Except.error ("job is not in pending status (current: " ++ statusText job.status ++ ")")

/-- `JobManager.CompleteJob`: set the terminal status, record the
completion time and remove the lock file. -/
def CompleteJob (s : JobStore) (jobID : String) (success : Bool) (errorMsg : String)
    (now : Int) : Except String JobStore :=
  match mapGet s.jobs jobID with
  | none => Except.error "getting job"
  | some job =>
    let job' :=
      if success then
        { job with status := .completed, errorMessage := "", completedAt := some now }
      else
        { job with status := .failed, errorMessage := errorMsg, completedAt := some now }
    Except.ok
      { jobs := mapSet s.jobs jobID job',
        locks := s.locks.filter (fun l => l ≠ jobID) }

/-- `JobManager.CancelJob`: reject unless the job is running; otherwise set
status canceled, record the completion time and remove the lock file.  The
rejection happens before any write. -/
def CancelJob (s : JobStore) (jobID : String) (now : Int) : Except String JobStore :=
  match mapGet s.jobs jobID with
  | none => Except.error "getting job"
  | some job =>
    if job.status = .running then
      Except.ok
        { jobs := mapSet s.jobs jobID
            { job with status := .canceled, completedAt := some now },
          locks := s.locks.filter (fun l => l ≠ jobID) }
    else
      Except.error ("job is not running (current: " ++ statusText job.status ++ ")")

/-! ### State store
Embedded from `StateManager` in `internal/backup/storage` (state manager
part of the pipeline sources).  Times are rational minutes; byte and file
counts are integers; the float arithmetic of the derived fields becomes
exact rational arithmetic, with the `time.Duration` float-to-int conversion
modelled as truncation toward zero. -/

/-- `CompressionStats` of a job state. -/
structure CompressionStats where
  originalBytes : Int
  compressedBytes : Int
  compressionRatioQ : ℚ
  spaceSaved : Int
  deriving Repr, DecidableEq

/-- The fields of `JobState` that `SaveJobState` reads or rewrites. -/
structure JobState where
  id : String
  processedFiles : Int
  totalFiles : Int
  progress : ℚ
  processingRate : ℚ
  estimatedCompletion : Option ℚ
  bytesProcessed : Int
  compression : CompressionStats
  errorCount : Int
  deriving Repr, DecidableEq

/-- Go's `time.Duration(f)` conversion of a float: truncation toward zero. -/
def truncTowardZero (q : ℚ) : Int :=
  if q < 0 then -(Int.floor (-q)) else Int.floor q

/-- First block of `StateManager.SaveJobState`: estimated completion from
the processing rate, when counts and rate are positive. -/
def recomputeEstimate (now : ℚ) (st : JobState) : JobState :=
  if 0 < st.processedFiles ∧ 0 < st.totalFiles ∧ 0 < st.processingRate then
    let remainingMinutes : ℚ := ((st.totalFiles - st.processedFiles : Int) : ℚ) / st.processingRate
    { st with estimatedCompletion := some (now + (truncTowardZero remainingMinutes : ℚ)) }
  else st

/-- Second block of `StateManager.SaveJobState`: progress percentage from
the file counts, when the total is positive. -/
def recomputeProgress (st : JobState) : JobState :=
  if 0 < st.totalFiles then
    { st with progress := ((st.processedFiles : ℚ) / (st.totalFiles : ℚ)) * 100 }
  else st

/-- Third block of `StateManager.SaveJobState`: compression ratio and space
saved from the accumulated byte totals, when bytes were processed. -/
def recomputeCompression (st : JobState) : JobState :=
  if 0 < st.bytesProcessed ∧ 0 < st.compression.originalBytes then
    { st with compression :=
        { st.compression with
          compressionRatioQ :=
            1 - ((st.compression.compressedBytes : ℚ) / (st.compression.originalBytes : ℚ)),
          spaceSaved := st.compression.originalBytes - st.compression.compressedBytes } }
  else st

/-- The derived-field recomputation at the top of
`StateManager.SaveJobState`, its three blocks in program order. -/
def SaveJobStateRecompute (now : ℚ) (st : JobState) : JobState :=
  recomputeCompression (recomputeProgress (recomputeEstimate now st))

/-- The two files `saveStateFile` touches: the committed state file and its
`.tmp` sibling.  A reader only ever opens `target`. -/
structure StateFile where
  target : Option JobState
  temp : Option JobState
  deriving Repr, DecidableEq

/-- `StateManager.saveStateFile` run up to `k` of its two steps: step one
writes the serialized record to the temporary file, step two renames the
temporary file over the target.  `k < 2` models a save interrupted
mid-write. -/
def saveStateFileSteps (fs : StateFile) (data : JobState) (k : Nat) : StateFile :=
  if k = 0 then fs
  else if k = 1 then { fs with temp := some data }
  else { target := some data, temp := none }

/-- `StateManager.SaveJobState`: recompute the derived fields, then run the
atomic write to completion. -/
def SaveJobState (fs : StateFile) (st : JobState) (now : ℚ) : StateFile :=
  saveStateFileSteps fs (SaveJobStateRecompute now st) 2

/-! ### Concrete instances used to evaluate the theorems -/

/-- Default config slice with no overrides and no exceptions, adjustment
step 2 (the `GetDefaultConfig` values). -/
def cfgDefault : BackupConfigModel :=
  { qualityTiers := defaultQualityTiers, qualityAdjustmentStep := 2,
    folderOverrides := [], dateRangeExceptions := [] }

/-- Config with a folder override for a wedding folder pinned to the high
tier, plus a date-range exception that also matches the sample file and
would force the low tier. -/
def cfgOverride : BackupConfigModel :=
  { qualityTiers := defaultQualityTiers, qualityAdjustmentStep := 2,
    folderOverrides := [("/photos/wedding", "High Quality (0-12 months)")],
    dateRangeExceptions := [{ startDate := 0, endDate := 10000,
                              forceTier := "Space Optimized (3+ years)" }] }

/-- A pending job, as `CreateJob` leaves it. -/
def jobPendingW : BackupJob :=
  { id := "job1", status := JobStatus.pending, startedAt := none,
    lastRunAt := none, completedAt := none, errorMessage := "" }

/-- A store holding only the pending job, with no lock files. -/
def storeW : JobStore :=
  { jobs := [("job1", jobPendingW)], locks := [] }

/-- A mid-run job state: 8 of 10 files done, 2 files per minute, 100 bytes
read of which 40 were written. -/
def stW : JobState :=
  { id := "job1", processedFiles := 8, totalFiles := 10, progress := 0,
    processingRate := 2, estimatedCompletion := none, bytesProcessed := 100,
    compression := { originalBytes := 100, compressedBytes := 40,
                     compressionRatioQ := 0, spaceSaved := 0 },
    errorCount := 0 }

/-- A previously committed state file for the same job. -/
def stPrevW : JobState :=
  { id := "job1", processedFiles := 5, totalFiles := 10, progress := 50,
    processingRate := 2, estimatedCompletion := none, bytesProcessed := 60,
    compression := { originalBytes := 60, compressedBytes := 30,
                     compressionRatioQ := 0, spaceSaved := 0 },
    errorCount := 0 }

/-- On-disk situation before the save: the previous state is committed. -/
def fsW : StateFile :=
  { target := some stPrevW, temp := none }

/-- Ten dequeued files of which two fail transformation. -/
def outcomes8ok2fail : List FileOutcome :=
  List.replicate 8 FileOutcome.transformed ++
    [FileOutcome.failed "photo error", FileOutcome.failed "video error"]

/-! ## Theorems -/

/-- The `GetTierByAge` loop is the first-match search over the catalog. -/
theorem getTierByAgeLoop_eq_find (tiers : List QualityTier) (ageDays : Int) :
    getTierByAgeLoop tiers ageDays =
      tiers.find? (fun t => decide (ageDays ≤ t.ageThresholdDays)) := by
  induction tiers with
  | nil => rfl
  | cons t rest ih =>
    simp only [getTierByAgeLoop, List.find?]
    by_cases h : ageDays ≤ t.ageThresholdDays
    · simp [h]
    · simp [h, ih]

/-- C4: for every non-empty catalog with strictly increasing age thresholds
and every file age, `GetTierByAge` returns the first tier in catalog
(ascending threshold) order whose threshold is at least the age, and the
last tier when the age exceeds every threshold. -/
theorem tier_for_age_first_match (tiers : List QualityTier) (ageDays : Int)
    (hne : tiers ≠ [])
    (hinc : tiers.Pairwise (fun a b => a.ageThresholdDays < b.ageThresholdDays)) :
    GetTierByAge tiers ageDays =
      some ((tiers.find? (fun t => decide (ageDays ≤ t.ageThresholdDays))).getD
        (tiers.getLast hne)) := by
  unfold GetTierByAge
  rw [getTierByAgeLoop_eq_find]
  cases hfind : tiers.find? (fun t => decide (ageDays ≤ t.ageThresholdDays)) with
  | some t => simp
  | none => simp [List.getLast?_eq_getLast_of_ne_nil hne]

/-- C4 witness: on the default catalog, age 10 days lands in the first
tier, 400 days in the second, 5000 days in the last. -/
theorem tier_for_age_first_match_witness :
    (defaultQualityTiers ≠ [] ∧
      defaultQualityTiers.Pairwise (fun a b => a.ageThresholdDays < b.ageThresholdDays)) ∧
    GetTierByAge defaultQualityTiers 400 =
      some ((defaultQualityTiers.find? (fun t => decide ((400 : Int) ≤ t.ageThresholdDays))).getD
        (defaultQualityTiers.getLast (by decide))) ∧
    GetTierByAge defaultQualityTiers 10 = some defaultTierHigh ∧
    GetTierByAge defaultQualityTiers 400 = some defaultTierMedium ∧
    GetTierByAge defaultQualityTiers 5000 = some defaultTierLow :=
  ⟨⟨by decide, by decide⟩,
    tier_for_age_first_match defaultQualityTiers 400 (by decide) (by decide),
    by decide, by decide, by decide⟩

/-- C3: when neither a folder override nor a date-range exception applies,
the tier used for a decision with space pressure inactive is the age-based
tier unchanged, and with pressure active it is the adjusted copy whose video
CRF is raised by the configured step when that stays within the legal
maximum 51 (so the adjusted CRF never exceeds 51 when the base CRF is
legal), and whose photo quality is lowered by the step bounded below.  The
catalog itself is untouched: the adjustment operates on a value copy
(`adjustedTier := tier`) and the pressure-inactive decision keeps returning
the unchanged base tier. -/
theorem space_pressure_adjustment (cfg : BackupConfigModel) (filePath : String)
    (now fileDate : Int) (baseTier : QualityTier)
    (hov : checkFolderOverrides cfg filePath = none)
    (hex : checkDateRangeExceptions cfg fileDate = none)
    (hbase : GetTierByAge cfg.qualityTiers (now - fileDate) = some baseTier) :
    DetermineTier cfg false now fileDate filePath = some baseTier
    ∧ DetermineTier cfg true now fileDate filePath =
        some (applySpacePressureAdjustment cfg.qualityAdjustmentStep baseTier)
    ∧ (applySpacePressureAdjustment cfg.qualityAdjustmentStep baseTier).videoCRF =
        (if baseTier.videoCRF + cfg.qualityAdjustmentStep ≤ 51 then
          baseTier.videoCRF + cfg.qualityAdjustmentStep else baseTier.videoCRF)
    ∧ (applySpacePressureAdjustment cfg.qualityAdjustmentStep baseTier).photoQuality =
        (if 50 ≤ baseTier.photoQuality - cfg.qualityAdjustmentStep then
          baseTier.photoQuality - cfg.qualityAdjustmentStep else baseTier.photoQuality)
    ∧ (baseTier.videoCRF ≤ 51 →
        (applySpacePressureAdjustment cfg.qualityAdjustmentStep baseTier).videoCRF ≤ 51) := by
  refine ⟨?_, ?_, ?_, ?_, ?_⟩
  · simp [DetermineTier, hov, hex, hbase]
  · simp [DetermineTier, hov, hex, hbase]
  · by_cases h1 : baseTier.videoCRF + cfg.qualityAdjustmentStep ≤ 51 <;>
      by_cases h2 : 50 ≤ baseTier.photoQuality - cfg.qualityAdjustmentStep <;>
      simp [applySpacePressureAdjustment, h1, h2]
  · by_cases h1 : baseTier.videoCRF + cfg.qualityAdjustmentStep ≤ 51 <;>
      by_cases h2 : 50 ≤ baseTier.photoQuality - cfg.qualityAdjustmentStep <;>
      simp [applySpacePressureAdjustment, h1, h2]
  · intro hcrf
    by_cases h1 : baseTier.videoCRF + cfg.qualityAdjustmentStep ≤ 51 <;>
      by_cases h2 : 50 ≤ baseTier.photoQuality - cfg.qualityAdjustmentStep <;>
      simp [applySpacePressureAdjustment, h1, h2] <;> omega

/-- C3 witness: under the default catalog (step 2) a young file resolves to
CRF 20 without pressure and CRF 22 (photo quality 90) under pressure. -/
theorem space_pressure_adjustment_witness :
    (checkFolderOverrides cfgDefault "/photos/x.jpg" = none ∧
      checkDateRangeExceptions cfgDefault 0 = none ∧
      GetTierByAge cfgDefault.qualityTiers (10 - 0) = some defaultTierHigh) ∧
    DetermineTier cfgDefault false 10 0 "/photos/x.jpg" = some defaultTierHigh ∧
    DetermineTier cfgDefault true 10 0 "/photos/x.jpg" =
      some (applySpacePressureAdjustment 2 defaultTierHigh) ∧
    defaultTierHigh.videoCRF = 20 ∧
    (applySpacePressureAdjustment 2 defaultTierHigh).videoCRF = 22 ∧
    (applySpacePressureAdjustment 2 defaultTierHigh).photoQuality = 90 ∧
    (applySpacePressureAdjustment 31 defaultTierLow).videoCRF = 26 :=
  ⟨⟨by decide, by decide, by decide⟩,
    (space_pressure_adjustment cfgDefault "/photos/x.jpg" 10 0 defaultTierHigh
      (by decide) (by decide) (by decide)).1,
    (space_pressure_adjustment cfgDefault "/photos/x.jpg" 10 0 defaultTierHigh
      (by decide) (by decide) (by decide)).2.1,
    by decide, by decide, by decide, by decide⟩

/-- C5: a folder-override hit takes strict precedence — whenever
`checkFolderOverrides` resolves a tier for the path, `DetermineTier`
returns exactly that tier for every file date, age and pressure state,
bypassing date-range exceptions and age logic; and the override resolves
whenever the first configured override folder is a prefix of the path and
its named tier exists in the catalog. -/
theorem folder_override_precedence (cfg : BackupConfigModel) (filePath : String) :
    (∀ (now fileDate : Int) (press : Bool) (t : QualityTier),
      checkFolderOverrides cfg filePath = some t →
        DetermineTier cfg press now fileDate filePath = some t)
    ∧ (∀ (folder tierName : String) (t : QualityTier)
        (rest : List (String × String)),
        cfg.folderOverrides = (folder, tierName) :: rest →
        strHasPrefix filePath folder = true →
        findTierByName cfg.qualityTiers tierName = some t →
        checkFolderOverrides cfg filePath = some t) := by
  constructor
  · intro now fileDate press t h
    simp [DetermineTier, h]
  · intro folder tierName t rest hcons hpre hname
    unfold checkFolderOverrides
    rw [hcons]
    simp [checkFolderOverrides.go, hpre, hname]

/-- C5 witness: a file in the wedding folder is pinned to the high tier
under every pressure state, although the configured date-range exception
also matches its timestamp (it would force the low tier) and its age-based
tier would be the low tier as well. -/
theorem folder_override_precedence_witness :
    (cfgOverride.folderOverrides =
        ("/photos/wedding", "High Quality (0-12 months)") :: [] ∧
      strHasPrefix "/photos/wedding/img.jpg" "/photos/wedding" = true ∧
      findTierByName cfgOverride.qualityTiers "High Quality (0-12 months)" =
        some defaultTierHigh) ∧
    checkDateRangeExceptions cfgOverride 5000 = some defaultTierLow ∧
    GetTierByAge cfgOverride.qualityTiers (9000 - 5000) = some defaultTierLow ∧
    DetermineTier cfgOverride true 9000 5000 "/photos/wedding/img.jpg" =
      some defaultTierHigh ∧
    DetermineTier cfgOverride false 9000 5000 "/photos/wedding/img.jpg" =
      some defaultTierHigh := by
  have h := folder_override_precedence cfgOverride "/photos/wedding/img.jpg"
  have hov := h.2 "/photos/wedding" "High Quality (0-12 months)" defaultTierHigh []
    (by decide) (by decide) (by decide)
  exact ⟨⟨by decide, by decide, by decide⟩, by decide, by decide,
    h.1 9000 5000 true defaultTierHigh hov,
    h.1 9000 5000 false defaultTierHigh hov⟩

/-- C9 (amended): a `GetCurrentUsage` call returns the cached value and
performs no scan whenever the last check timestamp — which the constructor
initializes to the construction time without scanning — is less than 5
minutes old; otherwise it walks the archive root, returns the recursive sum
of file sizes and caches it.  The cached value therefore reflects the most
recent scan only if one has happened; within the first 5 minutes after
construction it is the initial 0. -/
theorem usage_cache_amended (sm : SpaceMonitor) (now : Int) (fs : List FsEntry) :
    (now - sm.lastCheck < 300 →
      GetCurrentUsage sm now fs = ⟨sm.usedSpace, sm, false⟩)
    ∧ (300 ≤ now - sm.lastCheck →
      GetCurrentUsage sm now fs =
        ⟨walkTotalSize fs, ⟨now, walkTotalSize fs⟩, true⟩)
    ∧ NewSpaceMonitor now = ⟨now, 0⟩ := by
  refine ⟨?_, ?_, rfl⟩
  · intro h
    simp [GetCurrentUsage, h]
  · intro h
    rw [GetCurrentUsage, if_neg (by omega)]

/-- C9 counterexample: one minute after construction — when no filesystem
scan has ever happened — a call performs no scan and returns the initial 0
even though the archive root holds 100 bytes, so the cached value is served
without any scan in the preceding 5 minutes having occurred. -/
theorem usage_cache_counterexample :
    (GetCurrentUsage (NewSpaceMonitor 0) 60 [⟨false, 100⟩]).scanned = false
    ∧ (GetCurrentUsage (NewSpaceMonitor 0) 60 [⟨false, 100⟩]).value = 0
    ∧ walkTotalSize [⟨false, 100⟩] = 100
    ∧ (GetCurrentUsage (NewSpaceMonitor 0) 60 [⟨false, 100⟩]).value ≠
        walkTotalSize [⟨false, 100⟩] := by
  decide

/-- C9 witness: a call within 5 minutes of the last check returns the
cache untouched; a later call scans and returns the 7-byte total. -/
theorem usage_cache_amended_witness :
    ((100 : Int) - 0 < 300) ∧
    GetCurrentUsage ⟨0, 42⟩ 100 [⟨false, 7⟩] = ⟨42, ⟨0, 42⟩, false⟩ ∧
    ((300 : Int) ≤ 400 - 0) ∧
    GetCurrentUsage ⟨0, 42⟩ 400 [⟨false, 7⟩] = ⟨7, ⟨400, 7⟩, true⟩ :=
  ⟨by decide,
    (usage_cache_amended ⟨0, 42⟩ 100 [⟨false, 7⟩]).1 (by decide),
    by decide,
    ((usage_cache_amended ⟨0, 42⟩ 400 [⟨false, 7⟩]).2.1 (by decide)).trans (by decide)⟩

/-- C10: with an empty include list a file is included exactly when no
exclude pattern matches; a pattern matches when it glob-matches the base
name or occurs as a literal substring of the full path, so an exclude
pattern that is merely a substring of the path excludes the file even when
the glob matcher rejects it everywhere. -/
theorem include_filter_semantics (gm : String → String → Bool)
    (b : String → String) (filePath : String) (excludePatterns : List String) :
    (shouldIncludeFile gm b filePath [] excludePatterns = true ↔
      ∀ pat ∈ excludePatterns, patternMatches gm b filePath pat = false)
    ∧ (∀ (includePatterns : List String) (pat : String),
        pat ∈ excludePatterns → strContains filePath pat = true →
          shouldIncludeFile gm b filePath includePatterns excludePatterns = false)
    ∧ (∀ pat, patternMatches gm b filePath pat =
        (gm pat (b filePath) || strContains filePath pat)) := by
  refine ⟨⟨?_, ?_⟩, ?_, fun pat => rfl⟩
  · intro htrue pat hmem
    by_contra hne
    have hpat : patternMatches gm b filePath pat = true := by
      cases hp : patternMatches gm b filePath pat with
      | true => rfl
      | false => exact absurd hp hne
    have hany : excludePatterns.any (patternMatches gm b filePath) = true :=
      List.any_eq_true.mpr ⟨pat, hmem, hpat⟩
    simp [shouldIncludeFile, hany] at htrue
  · intro hall
    have hany : excludePatterns.any (patternMatches gm b filePath) = false :=
      List.any_eq_false.mpr (fun x hx => by simp [hall x hx])
    simp [shouldIncludeFile, hany]
  · intro includePatterns pat hmem hsub
    have hpat : patternMatches gm b filePath pat = true := by
      simp [patternMatches, hsub]
    have hany : excludePatterns.any (patternMatches gm b filePath) = true :=
      List.any_eq_true.mpr ⟨pat, hmem, hpat⟩
    simp [shouldIncludeFile, hany]

/-- C10 witness: the exclude pattern `tmp` is no glob match for the base
name under a matcher that rejects everything, yet its substring occurrence
in the path excludes the file; and with no patterns at all the file is
included by default. -/
theorem include_filter_semantics_witness :
    (("tmp" ∈ (["tmp"] : List String)) ∧
      strContains "/media/tmp/a.jpg" "tmp" = true) ∧
    shouldIncludeFile (fun _ _ => false) (fun s => s) "/media/tmp/a.jpg"
      ["*.jpg"] ["tmp"] = false ∧
    shouldIncludeFile (fun _ _ => false) (fun s => s) "/media/tmp/a.jpg"
      [] [] = true :=
  ⟨⟨by decide, by decide⟩,
    (include_filter_semantics (fun _ _ => false) (fun s => s) "/media/tmp/a.jpg"
      ["tmp"]).2.1 ["*.jpg"] "tmp" (by decide) (by decide),
    (include_filter_semantics (fun _ _ => false) (fun s => s) "/media/tmp/a.jpg"
      []).1.mpr (by intro pat h; simp at h)⟩

/-- C1: the pipeline stores every tracked record with `OriginalHash` left at
the Go zero value `""` (neither `ProcessPhoto` nor `ProcessVideo` reports a
hash and `processFiles` never sets the field), while the skip check looks
up the real SHA-256 digest, which is never the empty string.  Hence for any
content, a second run over the same bytes is not skipped, the registry
holds no record keyed by the content digest, and the lone record sits under
the empty key — refuting the claimed content-keyed idempotence. -/
theorem registry_hash_key_bug (sha256Hex : String → String)
    (content src1 dest1 src2 dest2 tierName : String)
    (h : sha256Hex content ≠ "") :
    (processFileRegistryStep sha256Hex [] content src1 dest1 tierName).2 = false
    ∧ (processFileRegistryStep sha256Hex
        (processFileRegistryStep sha256Hex [] content src1 dest1 tierName).1
        content src2 dest2 tierName).2 = false
    ∧ mapGet (processFileRegistryStep sha256Hex
        (processFileRegistryStep sha256Hex [] content src1 dest1 tierName).1
        content src2 dest2 tierName).1 (sha256Hex content) = none
    ∧ mapGet (processFileRegistryStep sha256Hex
        (processFileRegistryStep sha256Hex [] content src1 dest1 tierName).1
        content src2 dest2 tierName).1 "" =
        some (makeTrackedFile src2 dest2 tierName)
    ∧ (processFileRegistryStep sha256Hex
        (processFileRegistryStep sha256Hex [] content src1 dest1 tierName).1
        content src2 dest2 tierName).1.length = 1 := by
  have h' : ¬ (("" : String) = sha256Hex content) := fun e => h e.symm
  simp [processFileRegistryStep, IsFileProcessed, mapGet, AddProcessedFile,
    mapSet, makeTrackedFile, h']

/-- C1 witness: a concrete digest function with non-empty digest, one file
archived twice (the second time under a new path, the rename case): the
second run is not skipped and no record is keyed by the digest. -/
theorem registry_hash_key_bug_witness :
    ((fun _ : String => "d9") "c" ≠ "") ∧
    (processFileRegistryStep (fun _ => "d9")
        (processFileRegistryStep (fun _ => "d9") [] "c" "/a.jpg" "/out/a.jpg" "High").1
        "c" "/renamed.jpg" "/out/renamed.jpg" "High").2 = false ∧
    mapGet (processFileRegistryStep (fun _ => "d9")
        (processFileRegistryStep (fun _ => "d9") [] "c" "/a.jpg" "/out/a.jpg" "High").1
        "c" "/renamed.jpg" "/out/renamed.jpg" "High").1 "d9" = none :=
  ⟨by decide,
    (registry_hash_key_bug (fun _ => "d9") "c" "/a.jpg" "/out/a.jpg"
      "/renamed.jpg" "/out/renamed.jpg" "High" (by decide)).2.1,
    (registry_hash_key_bug (fun _ => "d9") "c" "/a.jpg" "/out/a.jpg"
      "/renamed.jpg" "/out/renamed.jpg" "High" (by decide)).2.2.1⟩

/-- C2 counterexample: for a discovery set of 10 files of which 2 fail
transformation, the run ends `completed_with_errors` with 2 error entries —
but `processedFiles` is 10, not 8: the counter is incremented for every
file taken off the work queue, before the skip check and regardless of the
outcome, so it never counts only the successes. -/
theorem pipeline_partial_failure_counterexample :
    (processFilesResult outcomes8ok2fail).status = "completed_with_errors"
    ∧ (processFilesResult outcomes8ok2fail).processedFiles = 10
    ∧ (processFilesResult outcomes8ok2fail).errors.length = 2
    ∧ (processFilesResult outcomes8ok2fail).failedFiles = 2
    ∧ (processFilesResult outcomes8ok2fail).processedFiles ≠ 8 := by
  decide

/-- C2 (amended): after a successful discovery the status is `completed`
exactly when no per-file error occurred and `completed_with_errors`
whenever at least one file failed (even if every file failed, since the
dequeue counter is positive for any non-empty set); `failed` arises only
when discovery itself returns an error; and `processedFiles` counts every
dequeued file — successes, failures and skips alike — so the 10-file
scenario with 2 failures reports 10, not 8. -/
theorem pipeline_status_amended (outcomes : List FileOutcome) (e : String) :
    ((processFilesResult outcomes).errors = [] →
      (processFilesResult outcomes).status = "completed")
    ∧ ((processFilesResult outcomes).errors ≠ [] →
      (processFilesResult outcomes).status = "completed_with_errors")
    ∧ (processFilesResult outcomes).processedFiles = outcomes.length
    ∧ (processFilesResult outcomes).errors = outcomes.filterMap outcomeError
    ∧ (∀ f : DiscoveredFile → FileOutcome,
        (pipelineRunStatus (Except.error e) f).status = "failed") := by
  refine ⟨?_, ?_, rfl, rfl, fun f => rfl⟩
  · intro h
    have h' : outcomes.filterMap outcomeError = [] := h
    simp [processFilesResult, h']
  · intro h
    have h' : outcomes.filterMap outcomeError ≠ [] := h
    have hne : outcomes ≠ [] := by
      rintro rfl
      exact h' rfl
    have hlen : 0 < outcomes.length := List.length_pos.mpr hne
    simp [processFilesResult, h', hlen]

/-- C2 witness: the amended statements evaluated on the 10-file scenario
with 2 transformation failures, and on a failed discovery. -/
theorem pipeline_status_amended_witness :
    ((processFilesResult outcomes8ok2fail).errors ≠ []) ∧
    (processFilesResult outcomes8ok2fail).status = "completed_with_errors" ∧
    (processFilesResult outcomes8ok2fail).processedFiles = outcomes8ok2fail.length ∧
    (pipelineRunStatus (Except.error "unreadable root")
      (fun _ => FileOutcome.transformed)).status = "failed" :=
  ⟨by decide,
    (pipeline_status_amended outcomes8ok2fail "unreadable root").2.1 (by decide),
    (pipeline_status_amended outcomes8ok2fail "unreadable root").2.2.1,
    (pipeline_status_amended outcomes8ok2fail "unreadable root").2.2.2.2
      (fun _ => FileOutcome.transformed)⟩

/-- C6: the walk callback of `discoverFiles` swallows every access error —
including the single callback invocation `filepath.Walk` makes for an
unreadable root — so discovery of a totally unreadable source root returns
an empty file list with no error and the run finishes with status
`completed`, not `failed` (the discovery-failure branch of
`ProcessDirectory` is unreachable).  Per-path errors are skipped without
aborting the walk: the files around a failing path are still discovered. -/
theorem discovery_root_error_swallowed (gm : String → String → Bool)
    (b : String → String) (cl : String → Option String)
    (inc exc : List String) (f : DiscoveredFile → FileOutcome) :
    discoverFiles gm b cl inc exc [WalkEvent.errorEntry "/photos"] = Except.ok []
    ∧ (pipelineRunStatus
        (discoverFiles gm b cl inc exc [WalkEvent.errorEntry "/photos"]) f).status
        = "completed"
    ∧ (pipelineRunStatus
        (discoverFiles gm b cl inc exc [WalkEvent.errorEntry "/photos"]) f).status
        ≠ "failed"
    ∧ discoverFiles gm b (fun _ => some "photo") [] []
        [WalkEvent.fileEntry "/p/a.jpg" 10 0, WalkEvent.errorEntry "/p/bad.jpg",
         WalkEvent.fileEntry "/p/c.jpg" 20 0]
      = Except.ok [{ path := "/p/a.jpg", fileType := "photo", size := 10, modTime := 0 },
                   { path := "/p/c.jpg", fileType := "photo", size := 20, modTime := 0 }] :=
  ⟨rfl, rfl, (by decide : ("completed" : String) ≠ "failed"), rfl⟩

/-- Reading back the key just written returns the written record. -/
theorem mapGet_mapSet_self {α : Type} (m : List (String × α)) (k : String) (v : α) :
    mapGet (mapSet m k v) k = some v := by
  induction m with
  | nil => simp [mapSet, mapGet]
  | cons p rest ih =>
    by_cases h : p.1 = k
    · simp [mapSet, mapGet, h]
    · simp [mapSet, mapGet, h, ih]

/-- Removing every copy of a key from the lock list leaves no lock for it. -/
theorem contains_filter_ne (l : List String) (a : String) :
    (l.filter (fun x => x ≠ a)).contains a = false := by
  rw [Bool.eq_false_iff]
  intro hc
  obtain ⟨x, hxmem, hbeq⟩ := List.contains_iff_exists_mem_beq.mp hc
  have hx : a = x := by simpa using hbeq
  have hne := (List.mem_filter.mp hxmem).2
  subst hx
  simp at hne

/-- A key absent from the lock list occurs zero times. -/
theorem count_eq_zero_of_contains_false (l : List String) (a : String)
    (h : l.contains a = false) : l.count a = 0 := by
  induction l with
  | nil => rfl
  | cons x xs ih =>
    rw [List.contains_cons, Bool.or_eq_false_iff] at h
    have h1 : ¬ x = a := by
      intro e
      subst e
      simpa using h.1
    rw [List.count_cons]
    simp [h1, ih h.2]

/-- C7: starting a pending job succeeds, marks it running with the start
timestamps and creates exactly one run-exclusion lock; a second `start` on
the now-running job is rejected with the descriptive Go error and — being
rejected before any write — produces no store and no second lock; `cancel`
of the still-pending job is likewise rejected with its descriptive error;
`cancel` of the running job succeeds, marks it canceled and clears the
lock. -/
theorem job_lifecycle_guard (s s₁ : JobStore) (jobID : String)
    (job jobRunning jobCanceled : BackupJob) (t1 t2 t3 : Int)
    (hget : mapGet s.jobs jobID = some job)
    (hpending : job.status = JobStatus.pending)
    (hnolock : s.locks.contains jobID = false)
    (hrun : jobRunning = { job with
      status := JobStatus.running,
      startedAt := some t1,
      lastRunAt := some t1 })
    (hcan : jobCanceled = { job with
      status := JobStatus.canceled,
      startedAt := some t1,
      lastRunAt := some t1,
      completedAt := some t3 })
    (hs₁ : s₁ = { jobs := mapSet s.jobs jobID jobRunning, locks := jobID :: s.locks }) :
    StartJob s jobID t1 = Except.ok s₁
    ∧ mapGet s₁.jobs jobID = some jobRunning
    ∧ s₁.locks.count jobID = 1
    ∧ StartJob s₁ jobID t2 =
        Except.error "job is not in pending status (current: running)"
    ∧ CancelJob s jobID t2 =
        Except.error "job is not running (current: pending)"
    ∧ CancelJob s₁ jobID t3 = Except.ok
        { jobs := mapSet s₁.jobs jobID jobCanceled,
          locks := s₁.locks.filter (fun l => l ≠ jobID) }
    ∧ mapGet (mapSet s₁.jobs jobID jobCanceled) jobID = some jobCanceled
    ∧ (s₁.locks.filter (fun l => l ≠ jobID)).contains jobID = false := by
  subst hrun
  subst hcan
  subst hs₁
  have hnm : jobID ∉ s.locks := by
    intro hm
    have hc : s.locks.contains jobID = true :=
      List.contains_iff_exists_mem_beq.mpr ⟨jobID, hm, by simp⟩
    rw [hnolock] at hc
    exact Bool.false_ne_true hc
  refine ⟨?_, ?_, ?_, ?_, ?_, ?_, ?_, ?_⟩
  · simp [StartJob, hget, hpending, hnolock, hnm]
  · exact mapGet_mapSet_self s.jobs jobID _
  · simp [List.count_cons, count_eq_zero_of_contains_false s.locks jobID hnolock]
  · simp [StartJob, mapGet_mapSet_self, statusText]
  · simp [CancelJob, hget, hpending, statusText]
  · simp [CancelJob, mapGet_mapSet_self, mapSet]
  · exact mapGet_mapSet_self _ jobID _
  · exact contains_filter_ne (jobID :: s.locks) jobID

/-- C7 witness: the lifecycle theorem evaluated on a store holding one
pending job and no locks. -/
theorem job_lifecycle_guard_witness :
    (mapGet storeW.jobs "job1" = some jobPendingW ∧
      jobPendingW.status = JobStatus.pending ∧
      storeW.locks.contains "job1" = false) ∧
    StartJob storeW "job1" 1 = Except.ok
      { jobs := mapSet storeW.jobs "job1"
          { jobPendingW with
            status := JobStatus.running,
            startedAt := some 1,
            lastRunAt := some 1 },
        locks := "job1" :: storeW.locks } ∧
    StartJob
      { jobs := mapSet storeW.jobs "job1"
          { jobPendingW with
            status := JobStatus.running,
            startedAt := some 1,
            lastRunAt := some 1 },
        locks := "job1" :: storeW.locks } "job1" 2 =
      Except.error "job is not in pending status (current: running)" ∧
    CancelJob storeW "job1" 2 =
      Except.error "job is not running (current: pending)" ∧
    ("job1" :: storeW.locks).count "job1" = 1 :=
  ⟨⟨by decide, by decide, by decide⟩,
    (job_lifecycle_guard storeW _ "job1" jobPendingW _ _ 1 2 3
      (by decide) (by decide) (by decide) rfl rfl rfl).1,
    (job_lifecycle_guard storeW _ "job1" jobPendingW _ _ 1 2 3
      (by decide) (by decide) (by decide) rfl rfl rfl).2.2.2.1,
    (job_lifecycle_guard storeW _ "job1" jobPendingW _ _ 1 2 3
      (by decide) (by decide) (by decide) rfl rfl rfl).2.2.2.2.1,
    (job_lifecycle_guard storeW _ "job1" jobPendingW _ _ 1 2 3
      (by decide) (by decide) (by decide) rfl rfl rfl).2.2.1⟩

/-- The estimate block rewrites only the estimated completion. -/
theorem recomputeEstimate_counts (now : ℚ) (st : JobState) :
    (recomputeEstimate now st).processedFiles = st.processedFiles
    ∧ (recomputeEstimate now st).totalFiles = st.totalFiles
    ∧ (recomputeEstimate now st).bytesProcessed = st.bytesProcessed
    ∧ (recomputeEstimate now st).compression = st.compression
    ∧ (recomputeEstimate now st).progress = st.progress := by
  by_cases h : (0 < st.processedFiles ∧ 0 < st.totalFiles ∧ 0 < st.processingRate) <;>
    simp [recomputeEstimate, h]

/-- The progress block rewrites only the progress percentage. -/
theorem recomputeProgress_fields (st : JobState) :
    (recomputeProgress st).estimatedCompletion = st.estimatedCompletion
    ∧ (recomputeProgress st).bytesProcessed = st.bytesProcessed
    ∧ (recomputeProgress st).compression = st.compression
    ∧ (recomputeProgress st).processedFiles = st.processedFiles
    ∧ (recomputeProgress st).totalFiles = st.totalFiles := by
  by_cases h : (0 < st.totalFiles) <;> simp [recomputeProgress, h]

/-- The compression block rewrites only the compression stats. -/
theorem recomputeCompression_fields (st : JobState) :
    (recomputeCompression st).progress = st.progress
    ∧ (recomputeCompression st).estimatedCompletion = st.estimatedCompletion := by
  by_cases h : (0 < st.bytesProcessed ∧ 0 < st.compression.originalBytes) <;>
    simp [recomputeCompression, h]

/-- C8: every job-state save first recomputes the derived fields — progress
percentage from the file counts, estimated completion from the current
processing rate, compression ratio and space saved from the accumulated
byte totals — and then commits the record by writing a temporary file and
renaming it over the target; a save interrupted before the rename leaves
the previously committed target untouched, and at every step the target
holds either the old complete record or the new complete record, never a
partial one. -/
theorem job_state_save_atomic (fs : StateFile) (st : JobState) (now : ℚ) :
    (SaveJobState fs st now).target = some (SaveJobStateRecompute now st)
    ∧ (∀ k, k < 2 →
        (saveStateFileSteps fs (SaveJobStateRecompute now st) k).target = fs.target)
    ∧ (∀ k, (saveStateFileSteps fs (SaveJobStateRecompute now st) k).target = fs.target
        ∨ (saveStateFileSteps fs (SaveJobStateRecompute now st) k).target =
            some (SaveJobStateRecompute now st))
    ∧ (0 < st.totalFiles →
        (SaveJobStateRecompute now st).progress =
          ((st.processedFiles : ℚ) / (st.totalFiles : ℚ)) * 100)
    ∧ (0 < st.processedFiles → 0 < st.totalFiles → 0 < st.processingRate →
        (SaveJobStateRecompute now st).estimatedCompletion =
          some (now + (truncTowardZero
            (((st.totalFiles - st.processedFiles : Int) : ℚ) / st.processingRate) : ℚ)))
    ∧ (0 < st.bytesProcessed → 0 < st.compression.originalBytes →
        (SaveJobStateRecompute now st).compression.compressionRatioQ =
            1 - ((st.compression.compressedBytes : ℚ) / (st.compression.originalBytes : ℚ))
          ∧ (SaveJobStateRecompute now st).compression.spaceSaved =
            st.compression.originalBytes - st.compression.compressedBytes) := by
  refine ⟨rfl, ?_, ?_, ?_, ?_, ?_⟩
  · intro k hk
    match k, hk with
    | 0, _ => rfl
    | 1, _ => rfl
  · intro k
    match k with
    | 0 => exact Or.inl rfl
    | 1 => exact Or.inl rfl
    | n + 2 => exact Or.inr rfl
  · intro ht
    have hE := recomputeEstimate_counts now st
    have htE : 0 < (recomputeEstimate now st).totalFiles := by
      rw [hE.2.1]
      exact ht
    rw [SaveJobStateRecompute, (recomputeCompression_fields _).1,
      recomputeProgress, if_pos htE]
    simp [hE.1, hE.2.1]
  · intro hp ht hr
    rw [SaveJobStateRecompute, (recomputeCompression_fields _).2,
      (recomputeProgress_fields _).1, recomputeEstimate, if_pos ⟨hp, ht, hr⟩]
  · intro hb ho
    have hE := recomputeEstimate_counts now st
    have hP := recomputeProgress_fields (recomputeEstimate now st)
    have hXb : (recomputeProgress (recomputeEstimate now st)).bytesProcessed
        = st.bytesProcessed := by
      rw [hP.2.1, hE.2.2.1]
    have hXc : (recomputeProgress (recomputeEstimate now st)).compression
        = st.compression := by
      rw [hP.2.2.1, hE.2.2.2.1]
    have hcond : 0 < (recomputeProgress (recomputeEstimate now st)).bytesProcessed ∧
        0 < (recomputeProgress (recomputeEstimate now st)).compression.originalBytes := by
      rw [hXb, hXc]
      exact ⟨hb, ho⟩
    rw [SaveJobStateRecompute, recomputeCompression, if_pos hcond]
    constructor
    · simp [hXc]
    · simp [hXc]

/-- C8 witness: the save evaluated on a mid-run state over a previously
committed file — the completed save commits the recomputed record, the
interrupted save (temporary file written, rename not reached) leaves the
old record in place. -/
theorem job_state_save_atomic_witness :
    ((0 : Int) < stW.totalFiles ∧ (0 : Int) < stW.processedFiles ∧
      (0 : ℚ) < stW.processingRate ∧ (0 : Int) < stW.bytesProcessed ∧
      (0 : Int) < stW.compression.originalBytes) ∧
    (SaveJobState fsW stW 5).target = some (SaveJobStateRecompute 5 stW) ∧
    (saveStateFileSteps fsW (SaveJobStateRecompute 5 stW) 1).target = some stPrevW ∧
    (SaveJobStateRecompute 5 stW).progress =
      ((stW.processedFiles : ℚ) / (stW.totalFiles : ℚ)) * 100 ∧
    (SaveJobStateRecompute 5 stW).estimatedCompletion =
      some (5 + (truncTowardZero
        (((stW.totalFiles - stW.processedFiles : Int) : ℚ) / stW.processingRate) : ℚ)) ∧
    (SaveJobStateRecompute 5 stW).compression.spaceSaved =
      stW.compression.originalBytes - stW.compression.compressedBytes :=
  ⟨⟨by decide, by decide, by decide, by decide, by decide⟩,
    (job_state_save_atomic fsW stW 5).1,
    ((job_state_save_atomic fsW stW 5).2.1 1 (by decide)).trans rfl,
    (job_state_save_atomic fsW stW 5).2.2.2.1 (by decide),
    (job_state_save_atomic fsW stW 5).2.2.2.2.1 (by decide) (by decide) (by decide),
    ((job_state_save_atomic fsW stW 5).2.2.2.2.2 (by decide) (by decide)).2⟩

end BackupPipeline
